import Mathlib

/-!
# Back2work-bot priority engine: a shallow embedding

This development embeds the priority-scoring and project-name-unification
core of `app/priority_engine.py` into Lean.  Strings are modelled as
`List Char`; CPython string primitives (`lower`, `strip`, `split`,
`isalpha`, `isupper`, `islower`, `capitalize`, whitespace handling) are
modelled character-exactly for the ASCII and Latin-1 repertoire, which
covers the engine's Spanish/English domain; `unicodedata.normalize("NFKD")`
followed by combining-mark removal is modelled by a per-character table
for the Latin-1 accented letters plus removal of the combining-diacritic
block.  `difflib.SequenceMatcher.ratio()` is modelled by the
Ratcliff/Obershelp recursion with CPython's exact tie-breaking, and the
float threshold comparisons are replaced by exact rational comparisons
(the rationals reachable as ratios of short strings are never within
floating-point rounding distance of the thresholds 0.88 and 0.80).
-/

namespace Back2work

/-- Convert a string literal to the `List Char` representation used
throughout this development. -/
def chars (s : String) : List Char := s.data

/-! ## CPython character primitives (ASCII + Latin-1 repertoire) -/

/-- CPython `str.isspace` / `re` `\s` (Unicode mode) whitespace predicate. -/
def pyIsSpace (c : Char) : Bool :=
  let n := c.toNat
  (0x09 ≤ n && n ≤ 0x0D) || (0x1C ≤ n && n ≤ 0x1F) || n = 0x20 ||
  n = 0x85 || n = 0xA0 || n = 0x1680 || (0x2000 ≤ n && n ≤ 0x200A) ||
  n = 0x2028 || n = 0x2029 || n = 0x202F || n = 0x205F || n = 0x3000

/-- ASCII or Latin-1 uppercase letter. -/
def isUpperChar (c : Char) : Bool :=
  let n := c.toNat
  (0x41 ≤ n && n ≤ 0x5A) || (0xC0 ≤ n && n ≤ 0xDE && n ≠ 0xD7)

/-- ASCII or Latin-1 lowercase letter. -/
def isLowerChar (c : Char) : Bool :=
  let n := c.toNat
  (0x61 ≤ n && n ≤ 0x7A) || (0xDF ≤ n && n ≤ 0xFF && n ≠ 0xF7)

/-- A cased character of the modelled repertoire. -/
def isCasedChar (c : Char) : Bool := isUpperChar c || isLowerChar c

/-- CPython `str.lower`, per character, on the modelled repertoire
(identity outside it). -/
def pyLower (c : Char) : Char :=
  let n := c.toNat
  if 0x41 ≤ n && n ≤ 0x5A then Char.ofNat (n + 32)
  else if 0xC0 ≤ n && n ≤ 0xDE && n ≠ 0xD7 then Char.ofNat (n + 32)
  else c

/-- CPython `str.upper`, per character, on the modelled repertoire
(identity outside it; `ß`/`ÿ` kept as-is, they are not hit by the code
paths that use this). -/
def pyUpper (c : Char) : Char :=
  let n := c.toNat
  if 0x61 ≤ n && n ≤ 0x7A then Char.ofNat (n - 32)
  else if 0xE0 ≤ n && n ≤ 0xFE && n ≠ 0xF7 then Char.ofNat (n - 32)
  else c

/-- `unicodedata.normalize("NFKD", ·)` followed by dropping combining
marks, per character, on the modelled repertoire: Latin-1 accented
letters decompose to their base letter, combining diacritics vanish,
everything else is untouched (`ø æ ß ð þ` have no NFKD decomposition,
matching CPython). -/
def nfkdStrip (c : Char) : List Char :=
  let n := c.toNat
  if 0x300 ≤ n && n ≤ 0x36F then []
  else if 0xE0 ≤ n && n ≤ 0xE5 then [Char.ofNat 0x61]      -- à..å → a
  else if n = 0xE7 then [Char.ofNat 0x63]                  -- ç → c
  else if 0xE8 ≤ n && n ≤ 0xEB then [Char.ofNat 0x65]      -- è..ë → e
  else if 0xEC ≤ n && n ≤ 0xEF then [Char.ofNat 0x69]      -- ì..ï → i
  else if n = 0xF1 then [Char.ofNat 0x6E]                  -- ñ → n
  else if 0xF2 ≤ n && n ≤ 0xF6 then [Char.ofNat 0x6F]      -- ò..ö → o
  else if 0xF9 ≤ n && n ≤ 0xFC then [Char.ofNat 0x75]      -- ù..ü → u
  else if n = 0xFD || n = 0xFF then [Char.ofNat 0x79]      -- ý ÿ → y
  else [c]

/-- Lowercase ASCII letter or digit: the characters the key-normalization
regex `[^a-z0-9\s]` keeps. -/
def isKeyChar (c : Char) : Bool :=
  let n := c.toNat
  (0x61 ≤ n && n ≤ 0x7A) || (0x30 ≤ n && n ≤ 0x39)

/-! ## CPython string primitives over `List Char` -/

/-- CPython `str.strip()`. -/
def pyStrip (l : List Char) : List Char :=
  ((l.dropWhile pyIsSpace).reverse.dropWhile pyIsSpace).reverse

/-- CPython `str.isalpha` on the modelled repertoire. -/
def pyIsAlpha (l : List Char) : Bool :=
  !l.isEmpty && l.all isCasedChar

/-- CPython `str.isupper`: at least one cased character and no lowercase
cased character. -/
def pyIsUpper (l : List Char) : Bool :=
  l.any isCasedChar && l.all (fun c => !isCasedChar c || isUpperChar c)

/-- CPython `str.islower`: at least one cased character and no uppercase
cased character. -/
def pyIsLower (l : List Char) : Bool :=
  l.any isCasedChar && l.all (fun c => !isCasedChar c || isLowerChar c)

/-- CPython `str.capitalize` (restricted to title-case = upper-case,
exact on the modelled repertoire): first character upper-cased, the rest
lower-cased. -/
def pyCapitalize : List Char → List Char
  | [] => []
  | c :: rest => pyUpper c :: rest.map pyLower

/-- `p` is a (contiguous) prefix of `l`. -/
def isPre : List Char → List Char → Bool
  | [], _ => true
  | _ :: _, [] => false
  | a :: p, b :: l => a = b && isPre p l

/-- CPython substring containment `needle in hay`. -/
def containsSub (needle hay : List Char) : Bool :=
  (List.range (hay.length + 1)).any fun i => isPre needle (hay.drop i)

/-- `re.sub(r"\s+", " ", ·)`: collapse every whitespace run to a single
space. -/
def collapseWs : List Char → List Char
  | [] => []
  | [c] => [if pyIsSpace c then ' ' else c]
  | c :: d :: rest =>
    if pyIsSpace c && pyIsSpace d then collapseWs (d :: rest)
    else (if pyIsSpace c then ' ' else c) :: collapseWs (d :: rest)

/-- CPython `str.split()` (no separator): split on whitespace runs,
dropping empty fields.  `acc` holds the current field reversed. -/
def splitWsAux : List Char → List Char → List (List Char)
  | [], acc => if acc.isEmpty then [] else [acc.reverse]
  | c :: rest, acc =>
    if pyIsSpace c then
      if acc.isEmpty then splitWsAux rest []
      else acc.reverse :: splitWsAux rest []
    else splitWsAux rest (c :: acc)

/-- CPython `str.split()` on whitespace. -/
def splitWs (l : List Char) : List (List Char) := splitWsAux l []

/-- CPython `" ".join(toks)`. -/
def joinSpace : List (List Char) → List Char
  | [] => []
  | [t] => t
  | t :: rest => t ++ ' ' :: joinSpace rest

/-! ## Project-name normalization (`priority_engine.py` lines 22–98)

`_PROJECT_PREFIX_RE = re.compile(r"^(proyecto|project|proj\.?|proy\.?)\s+", re.I)`
is modelled by trying the alternatives in the regex engine's backtracking
order (`proyecto`, `project`, `proj.`, `proj`, `proy.`, `proy`), each
case-insensitively and followed by at least one whitespace character;
the greedy `\s+` consumes the whole whitespace run. -/

/-- If `tok` (lowercase) is a case-insensitive prefix of `t` followed by
at least one whitespace character, return the remainder after the
whitespace run. -/
def matchTok (tok t : List Char) : Option (List Char) :=
  let n := tok.length
  if (t.take n).map pyLower = tok ∧ pyIsSpace (t.getD n 'x') then
    some ((t.drop n).dropWhile pyIsSpace)
  else none

/-- The prefix-token alternatives of `_PROJECT_PREFIX_RE`, in the regex
engine's match order. -/
def projPreToks : List (List Char) :=
  [chars "proyecto", chars "project", chars "proj.", chars "proj",
   chars "proy.", chars "proy"]

/-- First matching alternative of `_PROJECT_PREFIX_RE` at the start of
`t`, if any. -/
def findTok (t : List Char) : Option (List Char) :=
  projPreToks.findSome? fun tok => matchTok tok t

/-- `_PROJECT_PREFIX_RE.match(t)` succeeds. -/
def hasProjPre (t : List Char) : Bool := (findTok t).isSome

/-- `_PROJECT_PREFIX_RE.sub("", t)` for an anchored pattern: strip the
matched prefix if any. -/
def stripProjPre (t : List Char) : List Char :=
  match findTok t with
  | some r => r
  | none => t

/-- `_GENERIC_TAIL_TOKENS = _GENERIC_HEAD_TOKENS =
\x7b"implementation", "implementacion", "impl"\x7d`. -/
def isGenericTok (t : List Char) : Bool :=
  t = chars "implementation" || t = chars "implementacion" || t = chars "impl"

/-- `_PROJECT_STOPWORDS`. -/
def isStopTok (t : List Char) : Bool :=
  t = chars "de" || t = chars "del" || t = chars "la" || t = chars "el" ||
  t = chars "los" || t = chars "las" || t = chars "of" || t = chars "the" ||
  t = chars "and" || t = chars "y"

/-- The token loop of `_strip_generic_head_tokens`: while the first token
is generic, drop it and any immediately following stop-words.  `fuel`
bounds the iteration count (each round consumes at least one token, so
the token-list length is enough fuel). -/
def headStripToks : Nat → List (List Char) → List (List Char)
  | 0, ts => ts
  | fuel + 1, ts =>
    match ts with
    | [] => []
    | t :: rest =>
      if isGenericTok t then headStripToks fuel (rest.dropWhile isStopTok)
      else t :: rest

/-- `_strip_generic_head_tokens` (lines 37–46). -/
def stripGenericHead (nk : List Char) : List Char :=
  if nk.isEmpty then []
  else
    let toks := splitWs nk
    pyStrip (joinSpace (headStripToks toks.length toks))

/-- `_strip_generic_tail_tokens` (lines 49–56). -/
def stripGenericTail (nk : List Char) : List Char :=
  if nk.isEmpty then []
  else
    let toks := splitWs nk
    pyStrip (joinSpace ((toks.reverse.dropWhile isGenericTok).reverse))

/-- The character filter `re.sub(r"[^a-z0-9\s]+", " ", ·)`: keep lowercase
alphanumerics and whitespace, replace everything else by a space (runs
collapse later, giving the same result as replacing each run by one
space). -/
def subNonAlnum (l : List Char) : List Char :=
  l.map fun c => if isKeyChar c || pyIsSpace c then c else ' '

/-- `_proj_norm_key_raw` (lines 59–73): strip, strip the project prefix,
lower-case + NFKD-fold dropping combining marks, replace non-alphanumeric
runs by spaces, collapse whitespace, strip. -/
def projNormKeyRaw (s : List Char) : List Char :=
  if (pyStrip s).isEmpty then []
  else
    pyStrip (collapseWs (subNonAlnum
      (((pyStrip (stripProjPre (pyStrip s))).map pyLower).flatMap nfkdStrip)))

/-- `_proj_norm_key` (lines 76–80). -/
def projNormKey (s : List Char) : List Char :=
  stripGenericTail (stripGenericHead (projNormKeyRaw s))

/-- `_proj_display_name` (lines 83–92). -/
def projDisplayName (s : List Char) : List Char :=
  if (pyStrip s).isEmpty then []
  else pyStrip (collapseWs (pyStrip (stripProjPre (pyStrip s))))

/-- `_is_abbrev_orig` (lines 95–98). -/
def isAbbrevOrig (orig : List Char) : Bool :=
  let disp := projDisplayName orig
  !disp.isEmpty && pyIsAlpha disp && pyIsUpper disp &&
    1 ≤ disp.length && disp.length ≤ 3

/-! ## The `difflib.SequenceMatcher` model

`ratio()` is `2*M/T` where `M` is the total size of the matching blocks
found by the Ratcliff/Obershelp recursion: take the longest common
contiguous block (CPython tie-break: smallest end position in `a`, then
in `b`, which for maximal blocks equals the smallest start pair in
lexicographic order), then recurse on the parts left and on the parts
right of the block.  Neither string here ever reaches the autojunk
threshold (200), so no junk handling applies. -/

/-- Length of the longest common prefix. -/
def lcpLen : List Char → List Char → Nat
  | a :: as, b :: bs => if a = b then lcpLen as bs + 1 else 0
  | _, _ => 0

/-- `SequenceMatcher.find_longest_match` over the whole strings: the
longest common contiguous block, with the first (smallest `(i, j)`)
block winning among equal maximal lengths.  Returns `(i, j, k)`. -/
def flmBest (a b : List Char) : Nat × Nat × Nat :=
  (List.range (a.length + 1)).foldl
    (fun best i =>
      (List.range (b.length + 1)).foldl
        (fun best j =>
          let k := lcpLen (a.drop i) (b.drop j)
          if best.2.2 < k then (i, j, k) else best)
        best)
    (0, 0, 0)

/-- The matching-blocks recursion, with explicit fuel (`|a| + |b|` is
always sufficient: each level removes at least one character from each
side of the recursion). -/
def matchSumF : Nat → List Char → List Char → Nat
  | 0, _, _ => 0
  | fuel + 1, a, b =>
    let r := flmBest a b
    if r.2.2 = 0 then 0
    else
      matchSumF fuel (a.take r.1) (b.take r.2.1) + r.2.2 +
        matchSumF fuel (a.drop (r.1 + r.2.2)) (b.drop (r.2.1 + r.2.2))

/-- Total matched characters `M` of `SequenceMatcher(None, a, b)`. -/
def matchSum (a b : List Char) : Nat := matchSumF (a.length + b.length) a b

/-- `SequenceMatcher(None, a, b).ratio() >= 0.88`, as the exact rational
comparison `2*M/T ≥ 22/25` (`T > 0` on every call site). -/
def ratioGe88 (a b : List Char) : Bool :=
  25 * matchSum a b ≥ 11 * (a.length + b.length)

/-- `SequenceMatcher(None, a, b).ratio() >= 0.80`, as the exact rational
comparison `2*M/T ≥ 4/5`. -/
def ratioGe80 (a b : List Char) : Bool :=
  5 * matchSum a b ≥ 2 * (a.length + b.length)

/-! ## `_projects_similar` (lines 101–137) -/

/-- The abbreviation-vs-full-name branch of `_projects_similar`
(lines 123–128 and its mirror 130–135), for abbreviation candidate
`(aKey, aOrig)` against full name `bKey`. -/
def abbrevBranch (aKey bKey aOrig : List Char) : Bool :=
  isAbbrevOrig aOrig && aKey.length ≤ 3 &&
    ((isPre (aKey ++ [' ']) bKey ||
        (isPre aKey bKey && pyIsAlpha bKey && 4 ≤ bKey.length)) ||
      (!(splitWs bKey).isEmpty && (splitWs bKey).headD [] = aKey &&
        aKey.length ≤ 4))

/-- `_projects_similar(a_key, b_key, a_orig, b_orig)`. -/
def projectsSimilar (aKey bKey aOrig bOrig : List Char) : Bool :=
  if aKey.isEmpty || bKey.isEmpty then false
  else if aKey = bKey then true
  else if ratioGe88 aKey bKey then true
  else if (containsSub aKey bKey || containsSub bKey aKey) &&
      4 ≤ min aKey.length bKey.length then true
  else if max aKey.length bKey.length ≤ 12 &&
      aKey.take 3 = bKey.take 3 && ratioGe80 aKey bKey then true
  else if abbrevBranch aKey bKey aOrig then true
  else if abbrevBranch bKey aKey bOrig then true
  else false

/-! ## `build_project_canonical_map` (lines 140–205)

The Python `counts` dict iterates in first-insertion order; `sorted` is
stable.  Both are modelled explicitly: `distinctKeys` lists the valid
stripped values in first-occurrence order, and `sortByRank` is a stable
insertion sort by the key `(-count, len)`. -/

/-- A raw value is skipped when its stripped form lower-cases to one of
the null-like spellings (line 155). -/
def nullLike (s : List Char) : Bool :=
  s.map pyLower = chars "none" || s.map pyLower = chars "nan" ||
    s.map pyLower = chars "null"

/-- Occurrence count of the stripped value `s` among the raw batch. -/
def countOf (vs : List (List Char)) (s : List Char) : Nat :=
  vs.countP fun v => pyStrip v = s

/-- The distinct valid stripped values, in first-occurrence order
(the iteration order of the Python `counts` dict). -/
def distAux : List (List Char) → List (List Char) → List (List Char)
  | [], acc => acc
  | v :: rest, acc =>
    let s := pyStrip v
    if s.isEmpty || nullLike s then distAux rest acc
    else if s ∈ acc then distAux rest acc
    else distAux rest (acc ++ [s])

/-- Keys of the Python `counts` dict, in insertion order. -/
def distinctKeys (vs : List (List Char)) : List (List Char) :=
  distAux vs []

/-- `x` sorts strictly before `y` under the Python key
`(-counts[x], len(x))`. -/
def rankLt (vs : List (List Char)) (x y : List Char) : Bool :=
  countOf vs y < countOf vs x ||
    (countOf vs x = countOf vs y && x.length < y.length)

/-- Stable insertion into an ascending list: `x` goes after every
element not strictly greater than it. -/
def insRank (vs : List (List Char)) (x : List Char) :
    List (List Char) → List (List Char)
  | [] => [x]
  | y :: ys => if rankLt vs x y then x :: y :: ys else y :: insRank vs x ys

/-- Stable sort by `(-count, len)`, matching Python's `sorted` (line 163). -/
def sortByRank (vs : List (List Char)) : List (List Char) → List (List Char)
  | [] => []
  | x :: rest => insRank vs x (sortByRank vs rest)

/-- One cluster: the normalized key of its first member, its members in
insertion order, and the first member as stable representative. -/
structure Cluster where
  key : List Char
  members : List (List Char)
  rep : List Char
deriving DecidableEq

/-- Place `orig` (with normalized key `key`) into the first similar
cluster, else append a new cluster (lines 171–178). -/
def addToClusters (orig key : List Char) : List Cluster → List Cluster
  | [] => [⟨key, [orig], orig⟩]
  | cl :: rest =>
    if projectsSimilar key cl.key orig cl.rep then
      { cl with members := cl.members ++ [orig] } :: rest
    else cl :: addToClusters orig key rest

/-- The greedy clustering loop over the sorted uniques (lines 166–178);
values whose normalized key is empty are skipped. -/
def buildClustersAux : List (List Char) → List Cluster → List Cluster
  | [], cls => cls
  | orig :: rest, cls =>
    let key := projNormKey orig
    if key.isEmpty then buildClustersAux rest cls
    else buildClustersAux rest (addToClusters orig key cls)

/-- `_cand_score` (lines 185–195). -/
def candScore (vs : List (List Char)) (cand : List Char) : Int :=
  let freq : Int := Int.ofNat (if countOf vs cand = 0 then 1 else countOf vs cand)
  let disp := projDisplayName cand
  let prePen : Int := if hasProjPre (pyStrip cand) then 1 else 0
  let lenPen : Int := Int.ofNat (if disp.isEmpty then cand.length else disp.length)
  let rawKey := projNormKeyRaw cand
  let strippedKey := stripGenericTail rawKey
  let tailPen : Int :=
    if !rawKey.isEmpty && !strippedKey.isEmpty && rawKey ≠ strippedKey
    then 1 else 0
  freq * 100 - prePen * 20 - tailPen * 25 - lenPen

/-- Python `max(members, key=_cand_score)`: the first member attaining
the maximal score. -/
def bestMemberAux (vs : List (List Char)) (cur : List Char) :
    List (List Char) → List Char
  | [] => cur
  | m :: rest =>
    if candScore vs cur < candScore vs m then bestMemberAux vs m rest
    else bestMemberAux vs cur rest

/-- The canonical label of a cluster (lines 197–200). -/
def canonOf (vs : List (List Char)) (cl : Cluster) : List Char :=
  let best :=
    match cl.members with
    | [] => []
    | m :: rest => bestMemberAux vs m rest
  let disp := projDisplayName best
  let canon := if disp.isEmpty then pyStrip best else disp
  if pyIsLower canon then pyCapitalize canon else canon

/-- The final `mapping` dict (lines 181–203), as an association list;
each raw name occurs in exactly one cluster, so insertion order is the
cluster order. -/
def mkMapping (vs : List (List Char)) (cls : List Cluster) :
    List (List Char × List Char) :=
  cls.flatMap fun cl => cl.members.map fun m => (m, canonOf vs cl)

/-- First-match association lookup (`dict` access). -/
def lookupStr (m : List (List Char × List Char)) (s : List Char) :
    Option (List Char) :=
  match m with
  | [] => none
  | (k, c) :: rest => if k = s then some c else lookupStr rest s

/-- `build_project_canonical_map(project_values)` (lines 140–205). -/
def buildProjectCanonicalMap (vs : List (List Char)) :
    List (List Char × List Char) :=
  let uniq := distinctKeys vs
  if uniq.isEmpty then []
  else mkMapping vs (buildClustersAux (sortByRank vs uniq) [])

/-! ## `unify_projects_in_df` (lines 208–235), restricted to the project
column it rewrites -/

/-- The inner `_apply` rewrite (lines 226–232). -/
def applyProjMap (m : List (List Char × List Char)) (v : List Char) :
    List Char :=
  let s := pyStrip v
  if s.isEmpty || nullLike s then chars "None"
  else
    match lookupStr m s with
    | some c => c
    | none => s

/-- The project-column rewrite of `unify_projects_in_df`: build the map
from the column and apply `_apply` elementwise (identity when the map is
empty). -/
def unifyProjects (col : List (List Char)) : List (List Char) :=
  let m := buildProjectCanonicalMap col
  if m.isEmpty then col else col.map (applyProjMap m)

/-! ## `check_user_overrides` (lines 242–258) -/

/-- VIP-sender match: a nonempty VIP entry whose lower-case form is a
substring of the lower-cased, stripped sender. -/
def checkUserOverrides (sender : List Char)
    (vipSenders : List (List Char)) : Bool :=
  let senderClean := pyStrip (sender.map pyLower)
  vipSenders.any fun vip => !vip.isEmpty && containsSub (vip.map pyLower) senderClean

/-! ## `calculate_priority_score` (lines 265–394)

The LLM analysis dict `data` is modelled as a structure of optional
string fields (`None` default semantics of `dict.get` made explicit) and
booleans for the truthiness-tested flags.  The deadline is modelled as
the already-parsed timestamp in whole days (`none` for an absent, falsy
or unparseable value — `pd.to_datetime` failures are swallowed by the
`try/except`), and the hidden `pd.Timestamp.now()` is an explicit `now`
parameter in the same day units, so `days_until = deadline - now`. -/

structure EmailData where
  email_type : Option (List Char)
  action_level : Option (List Char)
  decision_level : Option (List Char)
  urgency : Option (List Char)
  summary : Option (List Char)
  project : Option (List Char)
  blocks_others : Bool
  decision_pending : Bool
  deadline : Option Int
deriving DecidableEq

/-- The `type_weights` table (lines 291–300), with `dict.get` default 0. -/
def typeWeights (t : List Char) : Int :=
  if t = chars "Approval_Request" then 25
  else if t = chars "Decision_Required" then 25
  else if t = chars "External_Request" then 20
  else if t = chars "Action_Request" then 15
  else if t = chars "Meeting" then 10
  else if t = chars "Report_Update" then 5
  else if t = chars "FYI_Informational" then 0
  else if t = chars "Notification_System" then -15
  else 0

/-- The `urgency_weights` table (lines 352–357), with `dict.get`
default 0. -/
def urgencyWeights (u : List Char) : Int :=
  if u = chars "Immediate" then 30
  else if u = chars "Short-term" then 20
  else if u = chars "Medium-term" then 10
  else if u = chars "Low" then -5
  else 0

def spamKeywords : List (List Char) :=
  [chars "newsletter", chars "promotional", chars "black friday",
   chars "sale", chars "unsubscribe", chars "club novartis"]

def marketingTriggers : List (List Char) :=
  [chars "trial", chars "free access", chars "survey", chars "encuesta",
   chars "webinar", chars "demo", chars "easyvideo", chars "trail"]

def closureKeywords : List (List Char) :=
  [chars "confirmed completion", chars "task completed", chars "no action",
   chars "thanks", chars "got it", chars "acknowledged"]

/-- `max(0, min(100, score))` — the clamp on the return line 394. -/
def clamp0100 (x : Int) : Int := max 0 (min 100 x)

/-- `calculate_priority_score(data, importance, subject)`, with the
current instant `now` (in days) made explicit. -/
def calculatePriorityScore (data : EmailData)
    (importance subject : List Char) (now : Int) : Int :=
  let subjectLower := subject.map pyLower
  let s1 : Int :=
    if containsSub (chars "[high priority]") subjectLower ||
        containsSub (chars "[urgent]") subjectLower then 50 + 20 else 50
  let s2 :=
    if !importance.isEmpty &&
        (pyStrip importance).map pyLower = chars "high" then s1 + 20 else s1
  let emailType := data.email_type.getD []
  let actionLevelD := data.action_level.getD (chars "None")
  let s3 :=
    if emailType = chars "Notification_System" &&
        actionLevelD = chars "Mandatory" then s2 + 15
    else s2 + typeWeights emailType
  let summary := (data.summary.getD []).map pyLower
  let fullContext :=
    subjectLower ++ ' ' :: summary ++ ' ' :: (data.project.getD []).map pyLower
  let s4 :=
    if spamKeywords.any (fun kw => containsSub kw fullContext) then s3 - 30
    else s3
  let isMarketing := marketingTriggers.any fun kw => containsSub kw fullContext
  let s5 := if isMarketing then s4 - 15 else s4
  let s6 :=
    if closureKeywords.any (fun kw => containsSub kw summary) then s5 - 20
    else s5
  let s7 :=
    if data.action_level = some (chars "Mandatory") then s6 + 20
    else if data.action_level = some (chars "Optional") then s6 + 10
    else s6
  let s8 :=
    if data.decision_level = some (chars "Required") then s7 + 20
    else if data.decision_level = some (chars "Optional") then s7 + 10
    else s7
  let detectedUrgency := data.urgency.getD (chars "Low")
  let s9 :=
    if !isMarketing then s8 + urgencyWeights detectedUrgency
    else if detectedUrgency = chars "Immediate" ||
        detectedUrgency = chars "Short-term" then s8 - 10
    else s8
  let s10 := if data.blocks_others then s9 + 25 else s9
  let s11 := if data.decision_pending then s10 + 15 else s10
  let s12 :=
    match data.deadline with
    | some dl =>
      if !isMarketing then
        let daysUntil := dl - now
        let w : Int :=
          if data.action_level = some (chars "Mandatory") then
            if daysUntil < 1 then 30
            else if daysUntil < 3 then 20
            else if daysUntil < 7 then 10
            else 0
          else if data.action_level = some (chars "Optional") then
            if daysUntil < 1 then 10 else 0
          else 0
        s11 + w
      else s11
    | none => s11
  clamp0100 s12

/-! ## `map_to_priority` (lines 397–508) -/

/-- `TRUSTED_SENDER_DOMAINS` from `config.py`. -/
def trustedSenderDomains : List (List Char) :=
  [chars "sandoz.com", chars "sandoz.net", chars "csod.com",
   chars "microsoft.com", chars "sharepointonline.com", chars "outlook.com",
   chars "regaloresponsable.es", chars "ilunion.com"]

def benefitKeywords : List (List Char) :=
  [chars "cesta navidad", chars "lote navidad", chars "obsequio empresa",
   chars "bonus letter"]

def sharingKeywords : List (List Char) :=
  [chars "wants to share", chars "requested access", chars "sharing request"]

def supportKeywords : List (List Char) :=
  [chars "dare asking", chars "need your support",
   chars "asking for your support", chars "need your help",
   chars "can you help", chars "asking for your help",
   chars "appreciate your support", chars "is there a way",
   chars "is there an easy way", chars "mentioned you"]

def spamIndicators : List (List Char) :=
  [chars "newsletter", chars "promotional", chars "unsubscribe",
   chars "black friday", chars "sale"]

/-- `forced_priority and forced_priority in ["High","Medium","Low"]`
(line 447): truthiness plus membership. -/
def forcedValid (fp : Option (List Char)) : Bool :=
  match fp with
  | some p => !p.isEmpty &&
      (p = chars "High" || p = chars "Medium" || p = chars "Low")
  | none => false

/-- `map_to_priority(...)`, argument-for-argument.  `user_config` is the
optional VIP-sender list (`user_config.get('vip_senders', [])` with the
`user_config or \x7b\x7d` default). -/
def mapToPriority (sender subject body email_type action_level
    decision_level urgency : List Char) (blocks_others : Bool) (score : Int)
    (importance : List Char) (user_config : Option (List (List Char)))
    (forced_priority : Option (List Char)) (is_phishing is_spam : Bool) :
    List Char :=
  if is_phishing || is_spam then chars "Low"
  else
    let vipSenders := user_config.getD []
    let fullText := subject ++ ' ' :: body
    if checkUserOverrides sender vipSenders then chars "High"
    else if forcedValid forced_priority then forced_priority.getD []
    else
      let senderLower := sender.map pyLower
      let subjectLower := subject.map pyLower
      let isTrusted := trustedSenderDomains.any fun d => containsSub d senderLower
      if isTrusted &&
          benefitKeywords.any (fun kw => containsSub kw subjectLower) then
        chars "Medium"
      else if (sharingKeywords.any fun kw => containsSub kw subjectLower) &&
          (containsSub (chars "sharepoint") senderLower ||
            containsSub (chars "confluence") senderLower) then
        chars "High"
      else if urgency = chars "Immediate" || blocks_others then chars "High"
      else if 75 ≤ score then chars "High"
      else if email_type = chars "Approval_Request" ||
          email_type = chars "Decision_Required" then chars "High"
      else if action_level = chars "Mandatory" &&
          urgency = chars "Short-term" then chars "High"
      else if email_type = chars "External_Request" &&
          (urgency = chars "Immediate" || urgency = chars "Short-term") then
        chars "High"
      else if supportKeywords.any fun kw =>
          containsSub kw (body.map pyLower) then chars "Medium"
      else if action_level = chars "Mandatory" ||
          action_level = chars "Optional" then
        if 50 ≤ score then chars "Medium" else chars "Medium"
      else if !isTrusted && (spamIndicators.any fun ind =>
          containsSub ind (fullText.map pyLower)) then chars "Low"
      else if score < 30 && action_level = chars "None" then chars "Low"
      else if urgency = chars "Low" && action_level = chars "None" then
        chars "Low"
      else chars "Medium"

/-- Two adjacent characters are not both whitespace — the invariant of
whitespace-collapsed text. -/
def noWsPair (a b : Char) : Prop :=
  ¬(pyIsSpace a = true ∧ pyIsSpace b = true)

/-- The concrete batch of the spec's Alpha-cluster test: raw names
"Proyecto Alpha" (×3), "ALPHA" (×2), "proyecto alpha" (×1),
"Alpha Implementation" (×1). -/
def c7Batch : List (List Char) :=
  [chars "Proyecto Alpha", chars "Proyecto Alpha", chars "Proyecto Alpha",
   chars "ALPHA", chars "ALPHA", chars "proyecto alpha",
   chars "Alpha Implementation"]

end Back2work

namespace Back2work

set_option maxRecDepth 100000

/-! ## Basic facts about the clamp -/

theorem clamp0100_nonneg (x : Int) : 0 ≤ clamp0100 x := le_max_left 0 _

theorem clamp0100_le (x : Int) : clamp0100 x ≤ 100 :=
  max_le (by norm_num) (min_le_left 100 x)

/-! ## C1, C2, C3: the classifier and the scorer bounds -/

/-- C1: for every combination of sender, subject, body, classification
fields, score, importance, user configuration and forcedPriority, if
`is_phishing` or `is_spam` is true then `map_to_priority` returns
`"Low"` — including an explicit `forced_priority = "High"` or a VIP
sender. -/
theorem c1_security_flags_force_low
    (sender subject body email_type action_level decision_level urgency :
      List Char) (blocks_others : Bool) (score : Int) (importance : List Char)
    (user_config : Option (List (List Char)))
    (forced_priority : Option (List Char)) (is_phishing is_spam : Bool)
    (h : is_phishing = true ∨ is_spam = true) :
    mapToPriority sender subject body email_type action_level decision_level
      urgency blocks_others score importance user_config forced_priority
      is_phishing is_spam = chars "Low" := by
  rcases h with h | h <;> simp [mapToPriority, h]

/-- Witness for C1 at a concrete input with a VIP sender and a forced
"High". -/
theorem c1_security_flags_force_low_witness :
    mapToPriority (chars "boss@corp.com") (chars "s") (chars "b") [] [] [] []
      true 100 [] (some [chars "boss"]) (some (chars "High")) true false =
      chars "Low" :=
  c1_security_flags_force_low _ _ _ _ _ _ _ _ _ _ _ _ _ _ (Or.inl rfl)

/-- C2: for every signal bundle, importance flag, subject string and
current instant — including enumerated fields set to arbitrary values —
`calculate_priority_score` returns an integer in `[0, 100]` (and is a
total function of its arguments, so it never raises). -/
theorem c2_score_in_bounds (data : EmailData) (importance subject : List Char)
    (now : Int) :
    0 ≤ calculatePriorityScore data importance subject now ∧
      calculatePriorityScore data importance subject now ≤ 100 :=
  ⟨clamp0100_nonneg _, clamp0100_le _⟩

/-- C3 counterexample: with both security flags false and
`forced_priority = "Low"`, a sender matching a VIP pattern makes
`map_to_priority` return `"High"`, not the forced `"Low"` — so the
forced priority is *not* returned "with no other condition on the
remaining arguments". -/
theorem c3_counterexample :
    mapToPriority (chars "boss@corp.com") [] [] [] [] [] [] false 0 []
        (some [chars "boss"]) (some (chars "Low")) false false =
        chars "High" ∧
      chars "High" ≠ chars "Low" := by
  refine ⟨by decide, by decide⟩

/-- C3 (amended): when both security flags are false, the sender matches
no VIP pattern of the user configuration, and `forced_priority` is one
of High/Medium/Low, `map_to_priority` returns it verbatim — even when
the score is 0 — with no condition on the remaining arguments. -/
theorem c3_forced_priority_verbatim
    (sender subject body email_type action_level decision_level urgency :
      List Char) (blocks_others : Bool) (score : Int) (importance : List Char)
    (user_config : Option (List (List Char))) (p : List Char)
    (hp : checkUserOverrides sender (user_config.getD []) = false)
    (hmem : p = chars "High" ∨ p = chars "Medium" ∨ p = chars "Low") :
    mapToPriority sender subject body email_type action_level decision_level
      urgency blocks_others score importance user_config (some p) false
      false = p := by
  rcases hmem with h | h | h <;> subst h <;>
    simp [mapToPriority, hp, forcedValid, chars]

/-- Witness for C3 (amended): no VIP configuration, `forcedPriority =
"Medium"`, score 0. -/
theorem c3_forced_priority_verbatim_witness :
    mapToPriority (chars "x@y.com") [] [] [] [] [] [] false 0 [] none
      (some (chars "Medium")) false false = chars "Medium" :=
  c3_forced_priority_verbatim _ _ _ _ _ _ _ _ _ _ _ _ (by decide)
    (Or.inr (Or.inl rfl))

/-! ## C4: unification is not idempotent -/

/-- C4: the required idempotence property fails.  On the batch
`["Proyecto Project Alpha"]` the first canonical map rewrites the batch
to `["Project Alpha"]` (one generic prefix stripped), and the map
re-derived from that result sends `"Project Alpha"` to `"Alpha"` —
not to itself. -/
theorem c4_unification_not_idempotent :
    unifyProjects [chars "Proyecto Project Alpha"] = [chars "Project Alpha"] ∧
      buildProjectCanonicalMap (unifyProjects [chars "Proyecto Project Alpha"])
        = [(chars "Project Alpha", chars "Alpha")] ∧
      chars "Alpha" ≠ chars "Project Alpha" := by
  refine ⟨by decide, by decide, by decide⟩

/-! ## C7: the Alpha cluster -/

/-- C7: on the batch with raw names "Proyecto Alpha" (×3), "ALPHA" (×2),
"proyecto alpha" (×1), "Alpha Implementation" (×1), the builder forms a
single cluster and maps all four names to the canonical label
`"Alpha"`. -/
theorem c7_alpha_cluster :
    (buildClustersAux
        (sortByRank c7Batch (distinctKeys c7Batch))
        []).length = 1 ∧
      buildProjectCanonicalMap c7Batch =
        [(chars "Proyecto Alpha", chars "Alpha"),
         (chars "ALPHA", chars "Alpha"),
         (chars "proyecto alpha", chars "Alpha"),
         (chars "Alpha Implementation", chars "Alpha")] := by
  refine ⟨by decide, by decide⟩

/-! ## C8: the scorer depends on the current instant -/

/-- C8 counterexample: the same signal bundle (a mandatory action with a
deadline at day 100), importance and subject produce different scores at
two different current instants: 95 when the deadline is today, 65 when
it is 50 days away.  The scorer is not a function of the bundle,
importance and subject alone. -/
theorem c8_counterexample :
    calculatePriorityScore
        ⟨none, some (chars "Mandatory"), none, none, none, none, false,
          false, some 100⟩ [] [] 100 = 95 ∧
      calculatePriorityScore
        ⟨none, some (chars "Mandatory"), none, none, none, none, false,
          false, some 100⟩ [] [] 50 = 65 := by
  refine ⟨by decide, by decide⟩

/-- C8 (amended): the scorer is a deterministic function of the signal
bundle, importance flag, subject and the current instant; whenever the
bundle carries no (parseable) deadline, the current instant is
irrelevant and the score depends on the three documented arguments
alone. -/
theorem c8_deterministic_without_deadline (data : EmailData)
    (importance subject : List Char) (h : data.deadline = none)
    (n₁ n₂ : Int) :
    calculatePriorityScore data importance subject n₁ =
      calculatePriorityScore data importance subject n₂ := by
  unfold calculatePriorityScore
  rw [h]

/-- Witness for C8 (amended) at a concrete bundle without deadline and
two different instants. -/
theorem c8_deterministic_without_deadline_witness :
    calculatePriorityScore
        ⟨none, some (chars "Mandatory"), none, none, none, none, false,
          false, none⟩ [] [] 0 =
      calculatePriorityScore
        ⟨none, some (chars "Mandatory"), none, none, none, none, false,
          false, none⟩ [] [] 365 :=
  c8_deterministic_without_deadline _ _ _ rfl 0 365

/-! ## C9: null-like project values are rewritten to "None" -/

/-- C9 counterexample: applying the canonical-map rewrite over the batch
`["Alpha", "nan"]` turns the null-like value `"nan"` into the literal
string `"None"` — it is not passed through unchanged. -/
theorem c9_counterexample :
    unifyProjects [chars "Alpha", chars "nan"] =
        [chars "Alpha", chars "None"] ∧
      chars "None" ≠ chars "nan" := by
  refine ⟨by decide, by decide⟩

/-- C9 (amended): the `_apply` rewrite sends every absent or null-like
value (empty, "none", "nan", "null", case-insensitive, after stripping)
to the literal string `"None"`; a value that is not null-like and is
absent from the map falls back to identity on its stripped form. -/
theorem c9_null_like_to_none (m : List (List Char × List Char))
    (v : List Char) :
    ((pyStrip v).isEmpty = true ∨ nullLike (pyStrip v) = true →
        applyProjMap m v = chars "None") ∧
      ((pyStrip v).isEmpty = false → nullLike (pyStrip v) = false →
        lookupStr m (pyStrip v) = none → applyProjMap m v = pyStrip v) := by
  constructor
  · intro h
    rcases h with h | h <;> simp [applyProjMap, h]
  · intro h1 h2 h3
    simp [applyProjMap, h1, h2, h3]

/-- Witness for C9 (amended): `"nan"` becomes `"None"` under the empty
map, while `"X"` (absent from the empty map) is returned unchanged. -/
theorem c9_null_like_to_none_witness :
    applyProjMap [] (chars "nan") = chars "None" ∧
      applyProjMap [] (chars "X") = chars "X" :=
  ⟨(c9_null_like_to_none [] (chars "nan")).1 (Or.inr (by decide)),
   (c9_null_like_to_none [] (chars "X")).2 (by decide) (by decide) rfl⟩

/-! ## C10: the similarity decision is not symmetric

`SequenceMatcher.ratio()` itself is order-dependent: the greedy
longest-block recursion commits to the first maximal block in `a`, and
the total matched size can differ after swapping the two strings.  With
keys `"aaa b"` and `"aaab ab"` the matched totals are 5 and 4, so the
0.80 short-name rule fires in one direction only. -/

/-- C10 counterexample: `_projects_similar` gives different answers on
the two orderings of the normalized keys `"aaa b"` and `"aaab ab"`
(original forms empty). -/
theorem c10_counterexample :
    projectsSimilar (chars "aaa b") (chars "aaab ab") [] [] = true ∧
      projectsSimilar (chars "aaab ab") (chars "aaa b") [] [] = false ∧
      matchSum (chars "aaa b") (chars "aaab ab") = 5 ∧
      matchSum (chars "aaab ab") (chars "aaa b") = 4 := by
  refine ⟨by decide, by decide, by decide, by decide⟩

/-- C10 (amended): the similarity decision is symmetric on every pair of
keys whose matched total (hence sequence-similarity ratio) is
order-independent; every rule other than the two ratio thresholds is
symmetric unconditionally. -/
theorem c10_symmetric_of_ratio_symmetric (a b ao bo : List Char)
    (h : matchSum a b = matchSum b a) :
    projectsSimilar a b ao bo = projectsSimilar b a bo ao := by
  have e88 : ratioGe88 b a = ratioGe88 a b := by
    unfold ratioGe88
    rw [h, Nat.add_comm]
  have e80 : ratioGe80 b a = ratioGe80 a b := by
    unfold ratioGe80
    rw [h, Nat.add_comm]
  unfold projectsSimilar
  rw [e88, e80, Bool.or_comm b.isEmpty, Nat.min_comm b.length,
    Nat.max_comm b.length, Bool.or_comm (containsSub b a)]
  by_cases h0 : (a.isEmpty || b.isEmpty) = true
  · simp [h0]
  · by_cases h1 : a = b
    · simp [h0, h1]
    · have h1' : ¬b = a := fun hc => h1 hc.symm
      have e3 : (b.take 3 = a.take 3) = (a.take 3 = b.take 3) :=
        propext ⟨fun hc => hc.symm, fun hc => hc.symm⟩
      simp only [h0, h1, h1', e3, if_false, if_true]
      simp only [Bool.if_true_left, Bool.if_false_right]
      simp only [Bool.and_true, Bool.decide_eq_true]
      rw [Bool.or_comm (abbrevBranch a b ao)]

/-- Witness for C10 (amended) on the keys `"alpha"` and `"beta"`, where
the matched totals agree. -/
theorem c10_symmetric_of_ratio_symmetric_witness :
    projectsSimilar (chars "alpha") (chars "beta") [] [] =
      projectsSimilar (chars "beta") (chars "alpha") [] [] :=
  c10_symmetric_of_ratio_symmetric (chars "alpha") (chars "beta") [] []
    (by decide)

/-! ## C5: totality of the canonical map

Membership bookkeeping through `distAux`, the stable sort, the greedy
clustering and the final mapping. -/

theorem mem_distAux (s : List Char) :
    ∀ (vs acc : List (List Char)), s ∈ acc → s ∈ distAux vs acc := by
  intro vs
  induction vs with
  | nil => intro acc h; simpa [distAux] using h
  | cons w rest ih =>
    intro acc h
    simp only [distAux]
    split
    · exact ih acc h
    · split
      · exact ih acc h
      · exact ih _ (List.mem_append_left _ h)

theorem strip_mem_distAux (v : List Char)
    (h1 : (pyStrip v).isEmpty = false) (h2 : nullLike (pyStrip v) = false) :
    ∀ (vs acc : List (List Char)), v ∈ vs → pyStrip v ∈ distAux vs acc := by
  intro vs
  induction vs with
  | nil => intro acc hv; cases hv
  | cons w rest ih =>
    intro acc hv
    rcases List.mem_cons.mp hv with rfl | h
    · simp only [distAux, h1, h2, Bool.or_self, Bool.false_eq_true, if_false]
      split
      · next hmem => exact mem_distAux _ rest acc hmem
      · exact mem_distAux _ rest _
          (List.mem_append_right _ (List.mem_singleton.mpr rfl))
    · simp only [distAux]
      split
      · exact ih acc h
      · split
        · exact ih acc h
        · exact ih _ h

theorem mem_insRank (vs : List (List Char)) (x s : List Char) :
    ∀ l : List (List Char), s ∈ l ∨ s = x → s ∈ insRank vs x l := by
  intro l
  induction l with
  | nil =>
    rintro (h | rfl)
    · cases h
    · exact List.mem_singleton.mpr rfl
  | cons y ys ih =>
    rintro (h | rfl)
    · simp only [insRank]
      split
      · exact List.mem_cons_of_mem _ h
      · rcases List.mem_cons.mp h with rfl | h'
        · exact List.mem_cons_self _ _
        · exact List.mem_cons_of_mem _ (ih (Or.inl h'))
    · simp only [insRank]
      split
      · exact List.mem_cons_self _ _
      · exact List.mem_cons_of_mem _ (ih (Or.inr rfl))

theorem mem_sortByRank (vs : List (List Char)) (s : List Char) :
    ∀ l : List (List Char), s ∈ l → s ∈ sortByRank vs l := by
  intro l
  induction l with
  | nil => intro h; cases h
  | cons x rest ih =>
    intro h
    rcases List.mem_cons.mp h with rfl | h'
    · exact mem_insRank vs _ _ _ (Or.inr rfl)
    · exact mem_insRank vs _ _ _ (Or.inl (ih h'))

theorem addToClusters_self (orig key : List Char) :
    ∀ cls : List Cluster,
      ∃ cl ∈ addToClusters orig key cls, orig ∈ cl.members := by
  intro cls
  induction cls with
  | nil =>
    exact ⟨⟨key, [orig], orig⟩, List.mem_singleton.mpr rfl,
      List.mem_singleton.mpr rfl⟩
  | cons cl rest ih =>
    simp only [addToClusters]
    split
    · exact ⟨{ cl with members := cl.members ++ [orig] },
        List.mem_cons_self _ _,
        List.mem_append_right _ (List.mem_singleton.mpr rfl)⟩
    · obtain ⟨cl', hmem, hin⟩ := ih
      exact ⟨cl', List.mem_cons_of_mem _ hmem, hin⟩

theorem addToClusters_preserve (orig key s : List Char) :
    ∀ cls : List Cluster, (∃ cl ∈ cls, s ∈ cl.members) →
      ∃ cl ∈ addToClusters orig key cls, s ∈ cl.members := by
  intro cls
  induction cls with
  | nil => rintro ⟨cl, hmem, _⟩; cases hmem
  | cons cl rest ih =>
    rintro ⟨cl', hmem, hin⟩
    simp only [addToClusters]
    split
    · rcases List.mem_cons.mp hmem with rfl | h'
      · exact ⟨{ cl' with members := cl'.members ++ [orig] },
          List.mem_cons_self _ _, List.mem_append_left _ hin⟩
      · exact ⟨cl', List.mem_cons_of_mem _ h', hin⟩
    · rcases List.mem_cons.mp hmem with rfl | h'
      · exact ⟨cl', List.mem_cons_self _ _, hin⟩
      · obtain ⟨cl'', hmem'', hin''⟩ := ih ⟨cl', h', hin⟩
        exact ⟨cl'', List.mem_cons_of_mem _ hmem'', hin''⟩

theorem buildClustersAux_preserve (s : List Char) :
    ∀ (origs : List (List Char)) (cls : List Cluster),
      (∃ cl ∈ cls, s ∈ cl.members) →
      ∃ cl ∈ buildClustersAux origs cls, s ∈ cl.members := by
  intro origs
  induction origs with
  | nil => intro cls h; simpa [buildClustersAux] using h
  | cons orig rest ih =>
    intro cls h
    simp only [buildClustersAux]
    split
    · exact ih cls h
    · exact ih _ (addToClusters_preserve _ _ _ _ h)

theorem buildClustersAux_mem (s : List Char)
    (hk : (projNormKey s).isEmpty = false) :
    ∀ (origs : List (List Char)) (cls : List Cluster), s ∈ origs →
      ∃ cl ∈ buildClustersAux origs cls, s ∈ cl.members := by
  intro origs
  induction origs with
  | nil => intro cls h; cases h
  | cons orig rest ih =>
    intro cls h
    rcases List.mem_cons.mp h with rfl | h'
    · simp only [buildClustersAux, hk, Bool.false_eq_true, if_false]
      exact buildClustersAux_preserve _ _ _ (addToClusters_self _ _ _)
    · simp only [buildClustersAux]
      split
      · exact ih cls h'
      · exact ih _ h'

theorem mem_mkMapping (vs : List (List Char)) (cls : List Cluster)
    (cl : Cluster) (m : List Char) (h1 : cl ∈ cls) (h2 : m ∈ cl.members) :
    (m, canonOf vs cl) ∈ mkMapping vs cls := by
  simp only [mkMapping, List.mem_flatMap]
  exact ⟨cl, h1, List.mem_map.mpr ⟨m, h2, rfl⟩⟩

theorem lookupStr_ne_none (s : List Char) :
    ∀ m : List (List Char × List Char), (∃ p ∈ m, p.1 = s) →
      lookupStr m s ≠ none := by
  intro m
  induction m with
  | nil => rintro ⟨p, hp, _⟩; cases hp
  | cons q rest ih =>
    rintro ⟨p, hp, hs⟩
    obtain ⟨k, c⟩ := q
    simp only [lookupStr]
    split
    · simp
    · next hne =>
      rcases List.mem_cons.mp hp with rfl | hmem
      · exact absurd hs hne
      · exact ih ⟨p, hmem, hs⟩

/-- C5 counterexample: `"!!!"` is a distinct, non-empty, non-null-like
raw value, yet the canonical map built from `["!!!"]` is empty — the
value's normalized key is empty, so it is skipped and never appears as
a key. -/
theorem c5_counterexample :
    pyStrip (chars "!!!") = chars "!!!" ∧ nullLike (chars "!!!") = false ∧
      buildProjectCanonicalMap [chars "!!!"] = [] := by
  refine ⟨by decide, by decide, by decide⟩

/-- C5 (amended): the canonical map contains as a key every distinct
value of the batch that is non-empty after trimming, not null-like, and
whose normalized key is non-empty; such values always have a binding in
the returned map. -/
theorem c5_map_total_on_nonempty_keys (vs : List (List Char))
    (v : List Char) (hv : v ∈ vs) (h1 : (pyStrip v).isEmpty = false)
    (h2 : nullLike (pyStrip v) = false)
    (h3 : (projNormKey (pyStrip v)).isEmpty = false) :
    lookupStr (buildProjectCanonicalMap vs) (pyStrip v) ≠ none := by
  have hs : pyStrip v ∈ distinctKeys vs := strip_mem_distAux v h1 h2 vs [] hv
  have hne : (distinctKeys vs).isEmpty = false := by
    cases hdk : distinctKeys vs with
    | nil => rw [hdk] at hs; cases hs
    | cons a l => rfl
  unfold buildProjectCanonicalMap
  simp only [hne, Bool.false_eq_true, if_false]
  obtain ⟨cl, hcl, hm⟩ :=
    buildClustersAux_mem _ h3 _ []
      (mem_sortByRank vs _ (distinctKeys vs) hs)
  exact lookupStr_ne_none _ _
    ⟨(pyStrip v, canonOf vs cl), mem_mkMapping vs _ cl _ hcl hm, rfl⟩

/-- Witness for C5 (amended) on the batch `["Alpha"]`. -/
theorem c5_map_total_on_nonempty_keys_witness :
    lookupStr (buildProjectCanonicalMap [chars "Alpha"])
      (pyStrip (chars "Alpha")) ≠ none :=
  c5_map_total_on_nonempty_keys [chars "Alpha"] (chars "Alpha")
    (List.mem_singleton.mpr rfl) (by decide) (by decide) (by decide)

/-! ## C6: character-level facts about the normalization pipeline -/

theorem isKeyChar_not_space (c : Char) (h : isKeyChar c = true) :
    pyIsSpace c = false := by
  cases hs : pyIsSpace c with
  | false => rfl
  | true =>
    exfalso
    simp only [isKeyChar, Bool.or_eq_true, Bool.and_eq_true,
      decide_eq_true_eq] at h
    simp only [pyIsSpace, Bool.or_eq_true, Bool.and_eq_true,
      decide_eq_true_eq] at hs
    omega

theorem pyLower_clean (c : Char) (h : isKeyChar c = true ∨ c = ' ') :
    pyLower c = c := by
  rcases h with h | rfl
  · simp only [isKeyChar, Bool.or_eq_true, Bool.and_eq_true,
      decide_eq_true_eq] at h
    simp only [pyLower]
    split_ifs with h1 h2
    · exfalso
      simp only [Bool.and_eq_true, decide_eq_true_eq] at h1
      omega
    · exfalso
      simp only [Bool.and_eq_true, decide_eq_true_eq] at h2
      omega
    · rfl
  · decide

theorem nfkdStrip_clean (c : Char) (h : isKeyChar c = true ∨ c = ' ') :
    nfkdStrip c = [c] := by
  rcases h with h | rfl
  · simp only [isKeyChar, Bool.or_eq_true, Bool.and_eq_true,
      decide_eq_true_eq] at h
    simp only [nfkdStrip]
    split_ifs with h1 h2 h3 h4 h5 h6 h7 h8 h9 <;>
      first
      | rfl
      | (exfalso
         simp only [Bool.and_eq_true, Bool.or_eq_true, decide_eq_true_eq] at *
         omega)
  · decide

theorem map_id_of (f : Char → Char) :
    ∀ l : List Char, (∀ c ∈ l, f c = c) → l.map f = l := by
  intro l
  induction l with
  | nil => intro _; rfl
  | cons c t ih =>
    intro h
    simp only [List.map_cons]
    rw [h c (List.mem_cons_self c t),
      ih fun x hx => h x (List.mem_cons_of_mem _ hx)]

theorem flatMap_id_of (f : Char → List Char) :
    ∀ l : List Char, (∀ c ∈ l, f c = [c]) → l.flatMap f = l := by
  intro l
  induction l with
  | nil => intro _; rfl
  | cons c t ih =>
    intro h
    simp only [List.flatMap_cons]
    rw [h c (List.mem_cons_self c t),
      ih fun x hx => h x (List.mem_cons_of_mem _ hx)]
    rfl

theorem subNonAlnum_clean (l : List Char)
    (h : ∀ c ∈ l, isKeyChar c = true ∨ c = ' ') : subNonAlnum l = l := by
  refine map_id_of _ l fun c hc => ?_
  rcases h c hc with h' | rfl
  · simp [h']
  · decide

/-! ## C6: whitespace-collapse invariants -/

theorem collapseWs_mem : ∀ l : List Char, ∀ c ∈ collapseWs l,
    c = ' ' ∨ (c ∈ l ∧ pyIsSpace c = false) := by
  intro l
  induction l with
  | nil => intro c hc; cases hc
  | cons a t ih =>
    cases t with
    | nil =>
      intro c hc
      simp only [collapseWs] at hc
      rcases List.mem_singleton.mp hc with rfl
      cases ha : pyIsSpace a with
      | true => left; simp [ha]
      | false =>
        right
        refine ⟨?_, ?_⟩ <;> simp [ha]
    | cons b r =>
      intro c hc
      simp only [collapseWs] at hc
      by_cases hab : (pyIsSpace a && pyIsSpace b) = true
      · rw [if_pos hab] at hc
        rcases ih c hc with h' | ⟨hmem, hns⟩
        · exact Or.inl h'
        · exact Or.inr ⟨List.mem_cons_of_mem _ hmem, hns⟩
      · rw [if_neg hab] at hc
        rcases List.mem_cons.mp hc with rfl | hc'
        · cases ha : pyIsSpace a with
          | true => left; simp [ha]
          | false =>
            right
            refine ⟨?_, ?_⟩ <;> simp [ha]
        · rcases ih c hc' with h' | ⟨hmem, hns⟩
          · exact Or.inl h'
          · exact Or.inr ⟨List.mem_cons_of_mem _ hmem, hns⟩

theorem collapseWs_head : ∀ (t : List Char) (a : Char),
    ∃ r, collapseWs (a :: t) = (if pyIsSpace a then ' ' else a) :: r := by
  intro t
  induction t with
  | nil => intro a; exact ⟨[], by simp [collapseWs]⟩
  | cons b r ih =>
    intro a
    by_cases hab : (pyIsSpace a && pyIsSpace b) = true
    · obtain ⟨r', hr'⟩ := ih b
      refine ⟨r', ?_⟩
      obtain ⟨ha, hb⟩ := Bool.and_eq_true_iff.mp hab
      simp [collapseWs, hab, hr', ha, hb]
    · exact ⟨collapseWs (b :: r), by simp [collapseWs, hab]⟩

theorem collapseWs_chain : ∀ l : List Char,
    List.Chain' noWsPair (collapseWs l) := by
  intro l
  induction l with
  | nil => exact List.chain'_nil
  | cons a t ih =>
    cases t with
    | nil => simp only [collapseWs]; exact List.chain'_singleton _
    | cons b r =>
      by_cases hab : (pyIsSpace a && pyIsSpace b) = true
      · simpa only [collapseWs, hab, if_true] using ih
      · simp only [collapseWs, hab, if_false]
        obtain ⟨r', hr'⟩ := collapseWs_head r b
        rw [hr'] at ih ⊢
        refine List.chain'_cons.mpr ⟨?_, ih⟩
        cases ha : pyIsSpace a with
        | false =>
          intro hcon
          have h1 := hcon.1
          simp only [Bool.false_eq_true, if_false] at h1
          exact absurd h1 (by simp [ha])
        | true =>
          have hb : pyIsSpace b = false := by
            cases hbv : pyIsSpace b with
            | false => rfl
            | true => exact absurd (by rw [ha, hbv]; rfl) hab
          intro hcon
          have h2 := hcon.2
          rw [hb] at h2
          simp only [Bool.false_eq_true, if_false] at h2
          exact absurd h2 (by simp [hb])

theorem collapseWs_id : ∀ l : List Char,
    (∀ c ∈ l, pyIsSpace c = true → c = ' ') →
    List.Chain' noWsPair l → collapseWs l = l := by
  intro l
  induction l with
  | nil => intro _ _; rfl
  | cons a t ih =>
    cases t with
    | nil =>
      intro hsp _
      simp only [collapseWs]
      cases ha : pyIsSpace a with
      | true => rw [hsp a (List.mem_singleton.mpr rfl) ha]; rfl
      | false => rfl
    | cons b r =>
      intro hsp hch
      have hnp : noWsPair a b := (List.chain'_cons.mp hch).1
      have hab : (pyIsSpace a && pyIsSpace b) = false := by
        cases hav : pyIsSpace a with
        | false => rfl
        | true =>
          cases hbv : pyIsSpace b with
          | false => rfl
          | true => exact absurd ⟨hav, hbv⟩ hnp
      simp only [collapseWs, hab, if_false]
      have hrec := ih (fun c hc h' => hsp c (List.mem_cons_of_mem _ hc) h')
        (List.chain'_cons.mp hch).2
      rw [hrec]
      cases ha : pyIsSpace a with
      | true => rw [hsp a (List.mem_cons_self _ _) ha]; rfl
      | false => rfl

/-! ## C6: stripping invariants -/

theorem dropWhile_head_false (p : Char → Bool) :
    ∀ (l t : List Char) (c : Char), l.dropWhile p = c :: t → p c = false := by
  intro l
  induction l with
  | nil => intro t c h; cases h
  | cons a l' ih =>
    intro t c h
    rw [List.dropWhile_cons] at h
    by_cases hp : p a = true
    · rw [if_pos hp] at h
      exact ih t c h
    · rw [if_neg hp] at h
      injection h with h1 _
      subst h1
      exact Bool.eq_false_iff.mpr hp

theorem dropWhile_idem (p : Char → Bool) (l : List Char) :
    (l.dropWhile p).dropWhile p = l.dropWhile p := by
  cases h : l.dropWhile p with
  | nil => rfl
  | cons c t =>
    have hc := dropWhile_head_false p l t c h
    simp [List.dropWhile_cons, hc]

theorem mem_pyStrip (l : List Char) (c : Char) (h : c ∈ pyStrip l) :
    c ∈ l := by
  unfold pyStrip at h
  rw [List.mem_reverse] at h
  have h1 := List.Sublist.mem h
    (List.IsSuffix.sublist (List.dropWhile_suffix pyIsSpace))
  rw [List.mem_reverse] at h1
  exact List.Sublist.mem h1
    (List.IsSuffix.sublist (List.dropWhile_suffix pyIsSpace))

theorem chain'_dropWhile (R : Char → Char → Prop) (p : Char → Bool) :
    ∀ l : List Char, List.Chain' R l → List.Chain' R (l.dropWhile p) := by
  intro l
  induction l with
  | nil => intro h; exact h
  | cons a t ih =>
    intro h
    rw [List.dropWhile_cons]
    split
    · exact ih (List.Chain'.tail h)
    · exact h

theorem chain'_reverse_noWs (l : List Char)
    (h : List.Chain' noWsPair l) : List.Chain' noWsPair l.reverse := by
  rw [List.chain'_reverse]
  exact List.Chain'.imp (fun a b hab hc => hab ⟨hc.2, hc.1⟩) h

theorem chain'_pyStrip (l : List Char) (h : List.Chain' noWsPair l) :
    List.Chain' noWsPair (pyStrip l) := by
  unfold pyStrip
  exact chain'_reverse_noWs _
    (chain'_dropWhile _ _ _
      (chain'_reverse_noWs _ (chain'_dropWhile _ _ _ h)))

theorem pyStrip_idem (l : List Char) : pyStrip (pyStrip l) = pyStrip l := by
  unfold pyStrip
  set u := l.dropWhile pyIsSpace with hu
  set t := u.reverse.dropWhile pyIsSpace with htdef
  have hfront : t.reverse.dropWhile pyIsSpace = t.reverse := by
    cases hrev : t.reverse with
    | nil => rfl
    | cons c s =>
      have htne : t ≠ [] := by
        intro hteq
        rw [hteq] at hrev
        cases hrev
      obtain ⟨pre, hpre⟩ := List.dropWhile_suffix (l := u.reverse) pyIsSpace
      have hlast : t.getLast? = u.reverse.getLast? := by
        conv_rhs => rw [← hpre]
        exact (List.getLast?_append_of_ne_nil pre htne).symm
      have hlast2 : u.reverse.getLast? = u.head? := by
        have h' := List.head?_reverse u.reverse
        rw [List.reverse_reverse] at h'
        exact h'.symm
      have hcval : t.getLast? = some c := by
        have h' := List.head?_reverse t
        rw [hrev] at h'
        exact h'.symm
      have huc : u.head? = some c := by
        rw [← hlast2, ← hlast, hcval]
      cases hucase : u with
      | nil => rw [hucase] at huc; cases huc
      | cons c0 u' =>
        rw [hucase] at huc
        injection huc with hc0
        have hpc : pyIsSpace c = false := by
          rw [← hc0]
          exact dropWhile_head_false pyIsSpace l u' c0 (hu ▸ hucase)
        simp [List.dropWhile_cons, hpc]
  rw [hfront, List.reverse_reverse, dropWhile_idem]

/-! ## C6: the normalized key is clean text -/

theorem projNormKeyRaw_clean (s : List Char) :
    ∀ c ∈ projNormKeyRaw s, isKeyChar c = true ∨ c = ' ' := by
  intro c hc
  unfold projNormKeyRaw at hc
  split at hc
  · cases hc
  · have h1 := mem_pyStrip _ _ hc
    rcases collapseWs_mem _ c h1 with rfl | ⟨hmem, hns⟩
    · exact Or.inr rfl
    · left
      rcases List.mem_map.mp hmem with ⟨d, _, rfl⟩
      by_cases hd : (isKeyChar d || pyIsSpace d) = true
      · rw [if_pos hd] at hns ⊢
        rw [Bool.or_eq_true] at hd
        rcases hd with h' | h'
        · exact h'
        · rw [h'] at hns
          cases hns
      · rw [if_neg hd] at hns
        exact absurd (by decide : pyIsSpace ' ' = true) (by rw [hns]; simp)

theorem projNormKeyRaw_eq_nil (s : List Char)
    (hc : (pyStrip s).isEmpty = true) : projNormKeyRaw s = [] := by
  unfold projNormKeyRaw
  rw [if_pos hc]

theorem projNormKeyRaw_eq_pipe (s : List Char)
    (hc : (pyStrip s).isEmpty = false) :
    projNormKeyRaw s =
      pyStrip (collapseWs (subNonAlnum
        (((pyStrip (stripProjPre (pyStrip s))).map pyLower).flatMap
          nfkdStrip))) := by
  unfold projNormKeyRaw
  rw [hc]
  rfl

theorem projNormKeyRaw_chain (s : List Char) :
    List.Chain' noWsPair (projNormKeyRaw s) := by
  cases hc : (pyStrip s).isEmpty with
  | true =>
    rw [projNormKeyRaw_eq_nil s hc]
    exact List.chain'_nil
  | false =>
    rw [projNormKeyRaw_eq_pipe s hc]
    generalize (subNonAlnum
      (((pyStrip (stripProjPre (pyStrip s))).map pyLower).flatMap
        nfkdStrip)) = w
    exact chain'_pyStrip (collapseWs w) (collapseWs_chain w)

theorem projNormKeyRaw_stripped (s : List Char) :
    pyStrip (projNormKeyRaw s) = projNormKeyRaw s := by
  unfold projNormKeyRaw
  split
  · rfl
  · exact pyStrip_idem _

theorem findTok_eq_none (t : List Char) (h : hasProjPre t = false) :
    findTok t = none := by
  unfold hasProjPre at h
  cases hf : findTok t with
  | none => rfl
  | some r => rw [hf] at h; cases h

theorem stripProjPre_of_none (t : List Char) (h : findTok t = none) :
    stripProjPre t = t := by
  unfold stripProjPre
  rw [h]

/-- C6 counterexample: the key normalizer is not idempotent.  On
`"proj-alpha"` the hyphen becomes a space, exposing the generic prefix
`"proj "`, which only a second pass strips: one application yields
`"proj alpha"`, a second yields `"alpha"`. -/
theorem c6_counterexample :
    projNormKeyRaw (chars "proj-alpha") = chars "proj alpha" ∧
      projNormKeyRaw (projNormKeyRaw (chars "proj-alpha")) = chars "alpha" ∧
      chars "alpha" ≠ chars "proj alpha" := by
  refine ⟨by decide, by decide, by decide⟩

/-- C6 (amended): the key normalizer is total (it is a total function
into strings, so it never raises, and the `None`/non-string coercion is
the empty-string case), and it is idempotent on every input whose
normalized form does not itself start with a generic project-prefix
token followed by whitespace — the only way normalization can fail to be
idempotent is by exposing a fresh prefix token. -/
theorem c6_norm_key_idempotent_without_fresh_pre (s : List Char)
    (h : hasProjPre (projNormKeyRaw s) = false) :
    projNormKeyRaw (projNormKeyRaw s) = projNormKeyRaw s := by
  revert h
  generalize hT : projNormKeyRaw s = t
  intro h
  have hclean : ∀ c ∈ t, isKeyChar c = true ∨ c = ' ' :=
    hT ▸ projNormKeyRaw_clean s
  have hchain : List.Chain' noWsPair t := hT ▸ projNormKeyRaw_chain s
  have hstripped : pyStrip t = t := hT ▸ projNormKeyRaw_stripped s
  by_cases hnil : t = []
  · rw [hnil]
    rfl
  · have hempty : t.isEmpty = false := by
      cases t with
      | nil => exact absurd rfl hnil
      | cons a l => rfl
    have hlow : t.map pyLower = t :=
      map_id_of _ t fun c hc => pyLower_clean c (hclean c hc)
    have hnf : t.flatMap nfkdStrip = t :=
      flatMap_id_of _ t fun c hc => nfkdStrip_clean c (hclean c hc)
    have hsub : subNonAlnum t = t := subNonAlnum_clean t hclean
    have hsp : ∀ c ∈ t, pyIsSpace c = true → c = ' ' := by
      intro c hc hspace
      rcases hclean c hc with h' | h'
      · rw [isKeyChar_not_space c h'] at hspace
        cases hspace
      · exact h'
    have hcol : collapseWs t = t := collapseWs_id t hsp hchain
    unfold projNormKeyRaw
    rw [hstripped, hempty, stripProjPre_of_none t (findTok_eq_none t h),
      hstripped, hlow, hnf, hsub, hcol, hstripped]
    rfl

/-- Witness for C6 (amended) on `"Proyecto  Álpha-1!"`, whose normalized
form `"alpha 1"` exposes no fresh prefix. -/
theorem c6_norm_key_idempotent_witness :
    projNormKeyRaw (projNormKeyRaw (chars "  Proyecto  Alpha-1! ")) =
      projNormKeyRaw (chars "  Proyecto  Alpha-1! ") :=
  c6_norm_key_idempotent_without_fresh_pre (chars "  Proyecto  Alpha-1! ")
    (by decide)

end Back2work
